import Mathlib

/-!
Verification of the settlement backend: reserve accounting (orders service),
token ledger adapter (token service) and chain-event decoding (event
listener), embedded shallowly.  Program numbers (JavaScript `number`) are
idealised as exact rationals `ℚ`; on-chain smallest-unit amounts are `ℤ`.
Chain reads and the address-syntax library call are parameters of a
`ChainEnv`; the reserve store is state passed explicitly.
-/

/-- JavaScript `Math.round`: half rounds up (toward positive infinity),
`Math.round x = Float.floor (x + 0.5)`. -/
def jsRound (x : ℚ) : ℤ := ⌊x + 1/2⌋

/-- `Math.round(assetAmount * 100) / 100`, the 2-decimal rounding the orders
service applies to the requested asset amount (orders.service.ts). -/
def round2 (x : ℚ) : ℚ := (jsRound (x * 100) : ℚ) / 100

/-- The smallest-unit amount the token service submits on-chain:
`roundedAssetAmount = Math.floor(amount * factor) / factor` with
`factor = 10 ** decimals`, then `ethers.parseUnits(roundedAssetAmount,
decimals)`, which multiplies the at-most-`decimals`-place decimal string back
by `10 ^ decimals`; the composite is `Math.floor (amount * 10 ^ decimals)`
(token.service.ts, mintTokens and burnTokens). -/
def truncUnits (amount : ℚ) (decimals : ℕ) : ℤ := ⌊amount * 10 ^ decimals⌋

/-- Truncation toward zero of a scaled amount, as the spec words it
("rescale amount to the token's smallest unit using truncation (not
rounding) toward zero"); stated for comparison with the code's
`Math.floor`, which rounds toward negative infinity. -/
def truncTowardZero (x : ℚ) : ℤ := if 0 ≤ x then ⌊x⌋ else ⌈x⌉

/-- The chain and library facts a token-service call consults: syntactic
address validity (`ethers.isAddress`), the identity-registry `isVerified`
read (`none` = the RPC call throws), the token contract's `decimals()`,
whether the configured signer `isAgent` on a token contract, `balanceOf`
in smallest units, and whether gas estimation and submission succeed. -/
structure ChainEnv where
  validAddress : String → Bool
  isVerifiedResult : String → Option Bool
  tokenDecimals : String → ℕ
  agentOk : String → Bool
  balanceUnits : String → String → ℤ
  chainOk : Bool

/-- token.service.ts `verifyUserIdentity`: returns the registry's
`isVerified(userAddress)` answer, and returns `false` when that chain call
throws (the catch block logs and returns `false`). -/
def verifyUserIdentity (env : ChainEnv) (userAddress : String) : Bool :=
  match env.isVerifiedResult userAddress with
  | some b => b
  | none => false

/-- The distinguishable failure exits of mintTokens / burnTokens.
`valueOutOfBounds` is the ethers library's deterministic throw when a
negative smallest-unit amount is ABI-encoded into the `uint256` mint/burn
argument (ERC3643.abi.ts) while building calldata for gas estimation. -/
inductive TokenErr where
  | invalidUserAddress
  | invalidTokenAddress
  | notVerified
  | notAgent
  | insufficientBalance
  | valueOutOfBounds
  | chainFailure
deriving DecidableEq, Repr

/-- One on-chain token transaction as submitted: contract, user and the
smallest-unit amount. -/
structure MintCall where
  token : String
  user : String
  units : ℤ
deriving DecidableEq, Repr

/-- token.service.ts `mintTokens` (latest revision, numeric `amount`):
validate the two addresses, verify the user in the identity registry,
check the signer is an agent on the token contract, read `decimals()` from
the contract, scale the amount by `Math.floor(amount * 10 ** decimals)`,
estimate gas and submit.  The mint ABI amount is `uint256`, so a negative
scaled amount makes ethers throw at ABI encoding inside
`token.mint.estimateGas`, before any submission; gas estimation itself and
the submission can also fail.  The second component lists the transactions
actually submitted to the chain. -/
def mintTokens (env : ChainEnv) (userAddress tokenAddress : String) (amount : ℚ) :
    Except TokenErr MintCall × List MintCall :=
  if env.validAddress userAddress = false then
    (Except.error TokenErr.invalidUserAddress, [])
  else if env.validAddress tokenAddress = false then
    (Except.error TokenErr.invalidTokenAddress, [])
  else if verifyUserIdentity env userAddress = false then
    (Except.error TokenErr.notVerified, [])
  else if env.agentOk tokenAddress = false then
    (Except.error TokenErr.notAgent, [])
  else if truncUnits amount (env.tokenDecimals tokenAddress) < 0 then
    (Except.error TokenErr.valueOutOfBounds, [])
  else if env.chainOk = false then
    (Except.error TokenErr.chainFailure, [])
  else
    let call : MintCall :=
      { token := tokenAddress, user := userAddress,
        units := truncUnits amount (env.tokenDecimals tokenAddress) }
    (Except.ok call, [call])

/-- token.service.ts `burnTokens` (latest revision): the same address,
identity and agent checks, then the balance check
`balance < burnAmount` against the same floor-scaled smallest-unit amount,
then gas estimation and submission.  As in `mintTokens`, the burn ABI
amount is `uint256`, so a negative scaled amount makes ethers throw at ABI
encoding inside `token.burn.estimateGas` (which runs after the balance
check), before any submission. -/
def burnTokens (env : ChainEnv) (userAddress tokenAddress : String) (amount : ℚ) :
    Except TokenErr MintCall × List MintCall :=
  if env.validAddress userAddress = false then
    (Except.error TokenErr.invalidUserAddress, [])
  else if env.validAddress tokenAddress = false then
    (Except.error TokenErr.invalidTokenAddress, [])
  else if verifyUserIdentity env userAddress = false then
    (Except.error TokenErr.notVerified, [])
  else if env.agentOk tokenAddress = false then
    (Except.error TokenErr.notAgent, [])
  else if env.balanceUnits tokenAddress userAddress
      < truncUnits amount (env.tokenDecimals tokenAddress) then
    (Except.error TokenErr.insufficientBalance, [])
  else if truncUnits amount (env.tokenDecimals tokenAddress) < 0 then
    (Except.error TokenErr.valueOutOfBounds, [])
  else if env.chainOk = false then
    (Except.error TokenErr.chainFailure, [])
  else
    let call : MintCall :=
      { token := tokenAddress, user := userAddress,
        units := truncUnits amount (env.tokenDecimals tokenAddress) }
    (Except.ok call, [call])

/-- orders.service.ts `OrderRequest`: user address, token contract address,
asset symbol and the usdc, asset and price numbers. -/
structure OrderRequest where
  user : String
  token : String
  assetSymbol : String
  usdcAmount : ℚ
  assetAmount : ℚ
  price : ℚ

/-- The failure exits of buyOrder / sellOrder: the input-validation
`BadRequestException`, the missing-record and insufficient-reserve
`BadRequestException`s of the sell path, and a propagated token-service
error. -/
inductive OrderErr where
  | invalidRequest
  | reserveNotFound
  | insufficientReserve
  | tokenError (e : TokenErr)
deriving DecidableEq, Repr

/-- orders.service.ts `OrderResponse` (message text omitted): success flag,
asset symbol, usdc amount, the rounded token amount minted or burned, and
the reserve amount after the update. -/
structure OrderResponse where
  success : Bool
  assetSymbol : String
  amount : ℚ
  tokenAmount : ℚ
  newTokenReserve : ℚ
deriving DecidableEq, Repr

/-- The reserve store's state: per asset symbol, the stored reserve amount
when a record exists. -/
def ReserveState : Type := String → Option ℚ

/-- Modelled from the spec: the Supabase reserve store's `getAssetReserve`
is not under src/ (only its callers are); spec section 4.1 gives
`get(assetSymbol) -> ReserveRecord | NotFound`. -/
def getAssetReserve (st : ReserveState) (assetSymbol : String) : Option ℚ :=
  st assetSymbol

/-- Modelled from the spec: the Supabase reserve store's
`updateAssetReserve` is not under src/ (only its callers are); spec
section 4.1 gives `applyDelta(assetSymbol, delta)`, which atomically adds
`delta` (positive for buy, negative for sell) to the stored amount and
returns the post-update record; a symbol with no record starts from 0.
Returns the new state and the post-update amount. -/
def updateAssetReserve (st : ReserveState) (assetSymbol : String) (delta : ℚ) :
    ReserveState × ℚ :=
  let newAmount := (st assetSymbol).getD 0 + delta
  (fun s => if s = assetSymbol then some newAmount else st s, newAmount)

/-- orders.service.ts `buyOrder` (latest revision): round the asset amount
to 2 decimals, validate `!assetSymbol || usdcAmount <= 0`, update the
asset reserve by the rounded amount, then call `mintTokens`; a mint
failure propagates after the reserve was already written. -/
def buyOrder (env : ChainEnv) (st : ReserveState) (orderRequest : OrderRequest) :
    Except OrderErr OrderResponse × ReserveState :=
  let roundedAssetAmount := round2 orderRequest.assetAmount
  if orderRequest.assetSymbol = "" ∨ orderRequest.usdcAmount ≤ 0 then
    (Except.error OrderErr.invalidRequest, st)
  else
    let upd := updateAssetReserve st orderRequest.assetSymbol roundedAssetAmount
    match (mintTokens env orderRequest.user orderRequest.token roundedAssetAmount).1 with
    | Except.error e => (Except.error (OrderErr.tokenError e), upd.1)
    | Except.ok _ =>
      (Except.ok { success := true, assetSymbol := orderRequest.assetSymbol,
                   amount := orderRequest.usdcAmount,
                   tokenAmount := roundedAssetAmount,
                   newTokenReserve := upd.2 }, upd.1)

/-- orders.service.ts `sellOrder` (latest revision): round the asset amount
to 2 decimals, validate, read the current reserve (`BadRequestException`
when no record exists), fail when `reserve_amount < roundedAssetAmount`,
otherwise apply the negative delta and call `burnTokens`; a burn failure
propagates after the reserve was already written. -/
def sellOrder (env : ChainEnv) (st : ReserveState) (orderRequest : OrderRequest) :
    Except OrderErr OrderResponse × ReserveState :=
  let roundedAssetAmount := round2 orderRequest.assetAmount
  if orderRequest.assetSymbol = "" ∨ orderRequest.usdcAmount ≤ 0 then
    (Except.error OrderErr.invalidRequest, st)
  else
    match getAssetReserve st orderRequest.assetSymbol with
    | none => (Except.error OrderErr.reserveNotFound, st)
    | some currentReserve =>
      if currentReserve < roundedAssetAmount then
        (Except.error OrderErr.insufficientReserve, st)
      else
        let upd := updateAssetReserve st orderRequest.assetSymbol (-roundedAssetAmount)
        match (burnTokens env orderRequest.user orderRequest.token roundedAssetAmount).1 with
        | Except.error e => (Except.error (OrderErr.tokenError e), upd.1)
        | Except.ok _ =>
          (Except.ok { success := true, assetSymbol := orderRequest.assetSymbol,
                       amount := orderRequest.usdcAmount,
                       tokenAmount := roundedAssetAmount,
                       newTokenReserve := upd.2 }, upd.1)

/-- event-listener.service.ts, the `BuyOrderCreated` handler: the raw
`usdcAmount` is taken as-is, the raw `price` is divided by `1e2`, and the
constructed request's asset amount is `usdcAmountDecimal / priceDecimal`
(the raw event assetAmount, scaled by `1e16`, is logged but not used for
the request). -/
def decodeBuyEvent (user ticker token : String)
    (usdcAmount assetAmount price : ℕ) : OrderRequest :=
  let usdcAmountDecimal : ℚ := usdcAmount
  let _assetAmountDecimal : ℚ := (assetAmount : ℚ) / 10000000000000000
  let priceDecimal : ℚ := (price : ℚ) / 100
  { user := user, token := token, assetSymbol := ticker,
    usdcAmount := usdcAmountDecimal,
    assetAmount := usdcAmountDecimal / priceDecimal,
    price := priceDecimal }

/-- A chain environment in which every check passes: all addresses parse,
every user is verified, every token reports 2 decimals, the signer is an
agent everywhere, balances are large and the chain accepts transactions. -/
def envOk : ChainEnv :=
  { validAddress := fun _ => true
    isVerifiedResult := fun _ => some true
    tokenDecimals := fun _ => 2
    agentOk := fun _ => true
    balanceUnits := fun _ _ => 1000000
    chainOk := true }

/-- Like `envOk` but the identity registry answers `false` for everyone. -/
def envUnverified : ChainEnv := { envOk with isVerifiedResult := fun _ => some false }

/-- Like `envOk` but the identity-registry `isVerified` call throws. -/
def envOutage : ChainEnv := { envOk with isVerifiedResult := fun _ => none }

/-- Like `envOk` but the signer is an agent on no token contract. -/
def envNoAgent : ChainEnv := { envOk with agentOk := fun _ => false }

/-- A reserve store holding 0.002 units of AAPL and nothing else. -/
def stAAPL : ReserveState := fun s => if s = "AAPL" then some (1/500) else none

/-- A reserve store holding 5 units of AAPL and nothing else. -/
def stFive : ReserveState := fun s => if s = "AAPL" then some 5 else none

/-- A sell request for 0.004 asset units (rounds to 0.00 at 2 decimals). -/
def reqSellSmall : OrderRequest :=
  { user := "0xabc", token := "0xdef", assetSymbol := "AAPL",
    usdcAmount := 1, assetAmount := 1/250, price := 1 }

/-- A sell request for 2 asset units. -/
def reqSellTwo : OrderRequest :=
  { user := "0xabc", token := "0xdef", assetSymbol := "AAPL",
    usdcAmount := 2, assetAmount := 2, price := 1 }

/-- A buy request for 1 asset unit. -/
def reqBuyOne : OrderRequest :=
  { user := "0xabc", token := "0xdef", assetSymbol := "AAPL",
    usdcAmount := 1, assetAmount := 1, price := 1 }

/-- A buy request for 0.005 asset units (rounds to 0.01 at 2 decimals). -/
def reqBuyHalfCent : OrderRequest :=
  { user := "0xabc", token := "0xdef", assetSymbol := "AAPL",
    usdcAmount := 1, assetAmount := 1/200, price := 1 }

/-- C1 counterexample: with 0.002 AAPL stored and a valid sell request for
0.004 asset units, the stored reserve is below the requested asset-unit
amount, yet the call succeeds (it does not fail with the
insufficient-reserve error) and the reserve is not decreased by the
requested amount: the code compares and subtracts the 2-decimal rounded
amount, here 0. -/
theorem sellOrder_requested_amount_cex :
    stAAPL "AAPL" = some (1/500)
    ∧ (1/500 : ℚ) < 1/250
    ∧ (sellOrder envOk stAAPL reqSellSmall).1
        = Except.ok { success := true, assetSymbol := "AAPL", amount := 1,
                      tokenAmount := 0, newTokenReserve := 1/500 }
    ∧ (sellOrder envOk stAAPL reqSellSmall).2 "AAPL" = some (1/500)
    ∧ (1/500 : ℚ) ≠ 1/500 - 1/250 :=
  ⟨by with_unfolding_all rfl,
   of_decide_eq_true (by with_unfolding_all rfl),
   by with_unfolding_all rfl,
   by with_unfolding_all rfl,
   of_decide_eq_true (by with_unfolding_all rfl)⟩

/-- C1, amended: for every sell request with a non-empty asset symbol and
positive fiat amount, with the requested asset-unit amount first rounded
to 2 decimals: when no reserve record exists the call fails with the
not-found error and no reserve write occurs; when the stored amount is
below the rounded amount the call fails with the insufficient-reserve
error and no reserve write occurs; otherwise the reserve is decreased by
exactly the rounded amount, leaving it non-negative (whether or not the
subsequent burn succeeds). -/
theorem sellOrder_reserve_safety (env : ChainEnv) (st : ReserveState)
    (req : OrderRequest) (hsym : req.assetSymbol ≠ "") (hamt : 0 < req.usdcAmount) :
    (st req.assetSymbol = none →
      sellOrder env st req = (Except.error OrderErr.reserveNotFound, st))
    ∧ (∀ r, st req.assetSymbol = some r → r < round2 req.assetAmount →
      sellOrder env st req = (Except.error OrderErr.insufficientReserve, st))
    ∧ (∀ r, st req.assetSymbol = some r → round2 req.assetAmount ≤ r →
      (sellOrder env st req).2 req.assetSymbol = some (r - round2 req.assetAmount)
      ∧ 0 ≤ r - round2 req.assetAmount) := by
  have hcond : ¬ (req.assetSymbol = "" ∨ req.usdcAmount ≤ 0) :=
    not_or.mpr ⟨hsym, not_le.mpr hamt⟩
  refine ⟨?_, ?_, ?_⟩
  · intro h
    simp only [sellOrder, getAssetReserve, if_neg hcond, h]
  · intro r hr hlt
    simp only [sellOrder, getAssetReserve, if_neg hcond, hr, if_pos hlt]
  · intro r hr hle
    have hnlt : ¬ r < round2 req.assetAmount := not_lt.mpr hle
    cases hbt : (burnTokens env req.user req.token (round2 req.assetAmount)).1 with
    | error e =>
      refine ⟨?_, sub_nonneg.mpr hle⟩
      simp only [sellOrder, getAssetReserve, updateAssetReserve, if_neg hcond, hr,
        if_neg hnlt, hbt, Option.getD_some, if_pos rfl, ite_true, sub_eq_add_neg]
    | ok c =>
      refine ⟨?_, sub_nonneg.mpr hle⟩
      simp only [sellOrder, getAssetReserve, updateAssetReserve, if_neg hcond, hr,
        if_neg hnlt, hbt, Option.getD_some, if_pos rfl, ite_true, sub_eq_add_neg]

/-- Witness for `sellOrder_reserve_safety`: selling 2 AAPL units against a
stored reserve of 5 leaves the reserve at 3, which is non-negative. -/
theorem sellOrder_reserve_safety_witness :
    (sellOrder envOk stFive reqSellTwo).2 "AAPL" = some 3 ∧ (0 : ℚ) ≤ 3 := by
  have h := (sellOrder_reserve_safety envOk stFive reqSellTwo
    (of_decide_eq_true (by with_unfolding_all rfl))
    (of_decide_eq_true (by with_unfolding_all rfl))).2.2 5
    (by with_unfolding_all rfl)
    (of_decide_eq_true (by with_unfolding_all rfl))
  exact ⟨h.1.trans (by with_unfolding_all rfl),
    (by with_unfolding_all rfl : (5 : ℚ) - round2 reqSellTwo.assetAmount = 3) ▸ h.2⟩

/-- C2 counterexample: a valid buy settlement by an unverified user fails
with the identity error and submits nothing, but the reserve does not hold
its pre-call value: it was increased from 5 to 6 before the mint attempt
and is not rolled back. -/
theorem buyOrder_unverified_reserve_mutated_cex :
    (buyOrder envUnverified stFive reqBuyOne).1
      = Except.error (OrderErr.tokenError TokenErr.notVerified)
    ∧ stFive "AAPL" = some 5
    ∧ (buyOrder envUnverified stFive reqBuyOne).2 "AAPL" = some 6
    ∧ ((6 : ℚ) ≠ 5) :=
  ⟨by with_unfolding_all rfl,
   by with_unfolding_all rfl,
   by with_unfolding_all rfl,
   of_decide_eq_true (by with_unfolding_all rfl)⟩

/-- C2, amended: a buy settlement for an unverified user (valid request,
syntactically valid addresses) fails with the identity-not-verified error
and no mint transaction is submitted to the chain; the reserve for the
asset symbol, however, has already been increased by the rounded
asset-unit amount before the mint attempt and keeps that increase. -/
theorem buyOrder_unverified_fails_no_submission (env : ChainEnv)
    (st : ReserveState) (req : OrderRequest)
    (hsym : req.assetSymbol ≠ "") (hamt : 0 < req.usdcAmount)
    (hu : env.validAddress req.user = true) (ht : env.validAddress req.token = true)
    (hv : verifyUserIdentity env req.user = false) :
    (buyOrder env st req).1 = Except.error (OrderErr.tokenError TokenErr.notVerified)
    ∧ (mintTokens env req.user req.token (round2 req.assetAmount)).2 = []
    ∧ (buyOrder env st req).2 req.assetSymbol
        = some ((st req.assetSymbol).getD 0 + round2 req.assetAmount) := by
  have hcond : ¬ (req.assetSymbol = "" ∨ req.usdcAmount ≤ 0) :=
    not_or.mpr ⟨hsym, not_le.mpr hamt⟩
  have hmint : mintTokens env req.user req.token (round2 req.assetAmount)
      = (Except.error TokenErr.notVerified, []) := by
    simp [mintTokens, hu, ht, hv]
  refine ⟨?_, by rw [hmint], ?_⟩
  · simp only [buyOrder, if_neg hcond, hmint]
  · simp only [buyOrder, updateAssetReserve, if_neg hcond, hmint, ite_true, if_pos rfl]

/-- Witness for `buyOrder_unverified_fails_no_submission`: an unverified
buy of 1 AAPL unit over a reserve of 5 errors, submits nothing, and leaves
the reserve at 6. -/
theorem buyOrder_unverified_fails_no_submission_witness :
    (buyOrder envUnverified stFive reqBuyOne).1
      = Except.error (OrderErr.tokenError TokenErr.notVerified)
    ∧ (mintTokens envUnverified "0xabc" "0xdef" (round2 1)).2 = []
    ∧ (buyOrder envUnverified stFive reqBuyOne).2 "AAPL" = some 6 := by
  have h := buyOrder_unverified_fails_no_submission envUnverified stFive reqBuyOne
    (of_decide_eq_true (by with_unfolding_all rfl))
    (of_decide_eq_true (by with_unfolding_all rfl))
    (by with_unfolding_all rfl)
    (by with_unfolding_all rfl)
    (by with_unfolding_all rfl)
  exact ⟨h.1, h.2.1, h.2.2.trans (by with_unfolding_all rfl)⟩

/-- C3: every transaction a mint or burn call actually submits on-chain
carries the requested amount truncated toward zero at the token's decimal
precision, never rounded up (the submitted units never exceed the exact
scaled value); in particular amount 1.005 at 2 decimals submits 100
smallest units, i.e. 1.00 and not 1.01.  The code computes the units with
`Math.floor`, but an amount whose floor-scaled units are negative never
reaches submission (uint256 encoding throws at gas estimation), and on
the non-negative units actually submitted floor and truncation toward
zero coincide. -/
theorem mint_burn_submitted_trunc_toward_zero (env : ChainEnv)
    (u t : String) (a : ℚ) (c : MintCall)
    (hmem : c ∈ (mintTokens env u t a).2 ∨ c ∈ (burnTokens env u t a).2) :
    c.units = truncTowardZero (a * 10 ^ env.tokenDecimals t)
    ∧ (c.units : ℚ) ≤ a * 10 ^ env.tokenDecimals t
    ∧ truncUnits (1005/1000) 2 = 100 := by
  have key : c.units = truncUnits a (env.tokenDecimals t)
      ∧ 0 ≤ truncUnits a (env.tokenDecimals t) := by
    rcases hmem with h | h
    · rw [mintTokens] at h
      split_ifs at h with h1 h2 h3 h4 h5 h6
      · exact absurd h (List.not_mem_nil c)
      · exact absurd h (List.not_mem_nil c)
      · exact absurd h (List.not_mem_nil c)
      · exact absurd h (List.not_mem_nil c)
      · exact absurd h (List.not_mem_nil c)
      · exact absurd h (List.not_mem_nil c)
      · simp only [List.mem_singleton] at h
        exact ⟨by rw [h], not_lt.mp h5⟩
    · rw [burnTokens] at h
      split_ifs at h with h1 h2 h3 h4 h5 h6 h7
      · exact absurd h (List.not_mem_nil c)
      · exact absurd h (List.not_mem_nil c)
      · exact absurd h (List.not_mem_nil c)
      · exact absurd h (List.not_mem_nil c)
      · exact absurd h (List.not_mem_nil c)
      · exact absurd h (List.not_mem_nil c)
      · exact absurd h (List.not_mem_nil c)
      · simp only [List.mem_singleton] at h
        exact ⟨by rw [h], not_lt.mp h6⟩
  have hx : (0 : ℚ) ≤ a * 10 ^ env.tokenDecimals t := by
    rw [truncUnits] at key
    exact Int.floor_nonneg.mp key.2
  refine ⟨?_, ?_, by with_unfolding_all rfl⟩
  · rw [key.1, truncUnits, truncTowardZero, if_pos hx]
  · rw [key.1, truncUnits]
    exact Int.floor_le _

/-- Witness for `mint_burn_submitted_trunc_toward_zero`: the transaction
submitted when minting 1.005 on a 2-decimal token carries 100 smallest
units, the truncation toward zero of 100.5, which never exceeds it. -/
theorem mint_burn_submitted_trunc_toward_zero_witness :
    ({ token := "0xb", user := "0xa", units := 100 } : MintCall).units
      = truncTowardZero ((1005/1000 : ℚ) * 10 ^ envOk.tokenDecimals "0xb")
    ∧ (({ token := "0xb", user := "0xa", units := 100 } : MintCall).units : ℚ)
      ≤ (1005/1000 : ℚ) * 10 ^ envOk.tokenDecimals "0xb"
    ∧ truncUnits (1005/1000) 2 = 100 :=
  mint_burn_submitted_trunc_toward_zero envOk "0xa" "0xb" (1005/1000)
    { token := "0xb", user := "0xa", units := 100 }
    (Or.inl (of_decide_eq_true (by with_unfolding_all rfl)))

/-- C4: in every buy or sell settlement that reaches the token-ledger call,
the reserve is written first; when the mint (or burn) then fails, the
settlement fails with the propagated ledger error but the reserve keeps
the already-applied adjustment (increase for buy, decrease for sell). -/
theorem reserve_update_precedes_ledger (env : ChainEnv) (st : ReserveState)
    (req : OrderRequest) (e : TokenErr)
    (hsym : req.assetSymbol ≠ "") (hamt : 0 < req.usdcAmount) :
    ((mintTokens env req.user req.token (round2 req.assetAmount)).1 = Except.error e →
      (buyOrder env st req).1 = Except.error (OrderErr.tokenError e)
      ∧ (buyOrder env st req).2 req.assetSymbol
          = some ((st req.assetSymbol).getD 0 + round2 req.assetAmount))
    ∧ (∀ r, st req.assetSymbol = some r → round2 req.assetAmount ≤ r →
      (burnTokens env req.user req.token (round2 req.assetAmount)).1 = Except.error e →
      (sellOrder env st req).1 = Except.error (OrderErr.tokenError e)
      ∧ (sellOrder env st req).2 req.assetSymbol = some (r - round2 req.assetAmount)) := by
  have hcond : ¬ (req.assetSymbol = "" ∨ req.usdcAmount ≤ 0) :=
    not_or.mpr ⟨hsym, not_le.mpr hamt⟩
  constructor
  · intro hm
    constructor
    · simp only [buyOrder, if_neg hcond, hm]
    · simp only [buyOrder, updateAssetReserve, if_neg hcond, hm, ite_true, if_pos rfl]
  · intro r hr hle hb
    have hnlt : ¬ r < round2 req.assetAmount := not_lt.mpr hle
    constructor
    · simp only [sellOrder, getAssetReserve, if_neg hcond, hr, if_neg hnlt, hb]
    · simp only [sellOrder, getAssetReserve, updateAssetReserve, if_neg hcond, hr,
        if_neg hnlt, hb, Option.getD_some, ite_true, if_pos rfl, sub_eq_add_neg]

/-- Witness for `reserve_update_precedes_ledger`: with a signer that is an
agent nowhere, a buy of 1 AAPL unit errors yet leaves the reserve raised
from 5 to 6, and a sell of 2 units errors yet leaves it lowered to 3. -/
theorem reserve_update_precedes_ledger_witness :
    (buyOrder envNoAgent stFive reqBuyOne).1
      = Except.error (OrderErr.tokenError TokenErr.notAgent)
    ∧ (buyOrder envNoAgent stFive reqBuyOne).2 "AAPL" = some 6
    ∧ (sellOrder envNoAgent stFive reqSellTwo).1
      = Except.error (OrderErr.tokenError TokenErr.notAgent)
    ∧ (sellOrder envNoAgent stFive reqSellTwo).2 "AAPL" = some 3 := by
  have h1 := (reserve_update_precedes_ledger envNoAgent stFive reqBuyOne
    TokenErr.notAgent
    (of_decide_eq_true (by with_unfolding_all rfl))
    (of_decide_eq_true (by with_unfolding_all rfl))).1
    (by with_unfolding_all rfl)
  have h2 := (reserve_update_precedes_ledger envNoAgent stFive reqSellTwo
    TokenErr.notAgent
    (of_decide_eq_true (by with_unfolding_all rfl))
    (of_decide_eq_true (by with_unfolding_all rfl))).2 5
    (by with_unfolding_all rfl)
    (of_decide_eq_true (by with_unfolding_all rfl))
    (by with_unfolding_all rfl)
  exact ⟨h1.1, h1.2.trans (by with_unfolding_all rfl),
    h2.1, h2.2.trans (by with_unfolding_all rfl)⟩

/-- C5 counterexample: a valid buy for X = 0.005 asset units over a reserve
of 5 leaves the reserve at 5.01, not 5.005: the delta applied is the
2-decimal rounded amount, not X, so the reserve after is not
reserve-before + X. -/
theorem buyOrder_exact_delta_cex :
    stFive "AAPL" = some 5
    ∧ reqBuyHalfCent.assetAmount = 1/200
    ∧ (buyOrder envOk stFive reqBuyHalfCent).2 "AAPL" = some (5 + 1/100)
    ∧ ((5 + 1/100 : ℚ) ≠ 5 + 1/200) :=
  ⟨by with_unfolding_all rfl,
   by with_unfolding_all rfl,
   by with_unfolding_all rfl,
   of_decide_eq_true (by with_unfolding_all rfl)⟩

/-- C5, amended: for every valid buy request with asset-unit amount X over
an existing non-negative reserve, the reserve after the buy equals the
reserve before plus X rounded to 2 decimals, exactly; and buying X then
selling X on the same symbol returns the reserve exactly to its original
value (the same rounded delta is added then subtracted). -/
theorem buy_round_trip_rounded_delta (env : ChainEnv) (st : ReserveState)
    (req : OrderRequest) (r0 : ℚ)
    (hsym : req.assetSymbol ≠ "") (hamt : 0 < req.usdcAmount)
    (hr : st req.assetSymbol = some r0) (h0 : 0 ≤ r0) :
    (buyOrder env st req).2 req.assetSymbol = some (r0 + round2 req.assetAmount)
    ∧ (sellOrder env ((buyOrder env st req).2) req).2 req.assetSymbol = some r0 := by
  have hcond : ¬ (req.assetSymbol = "" ∨ req.usdcAmount ≤ 0) :=
    not_or.mpr ⟨hsym, not_le.mpr hamt⟩
  have h1 : (buyOrder env st req).2 req.assetSymbol
      = some (r0 + round2 req.assetAmount) := by
    cases hm : (mintTokens env req.user req.token (round2 req.assetAmount)).1 with
    | error e =>
      simp only [buyOrder, updateAssetReserve, if_neg hcond, hm, hr,
        Option.getD_some, ite_true, if_pos rfl]
    | ok c =>
      simp only [buyOrder, updateAssetReserve, if_neg hcond, hm, hr,
        Option.getD_some, ite_true, if_pos rfl]
  refine ⟨h1, ?_⟩
  have hnlt : ¬ r0 + round2 req.assetAmount < round2 req.assetAmount :=
    not_lt.mpr (le_add_of_nonneg_left h0)
  have hcancel : r0 + round2 req.assetAmount + -round2 req.assetAmount = r0 :=
    add_neg_cancel_right r0 (round2 req.assetAmount)
  cases hb : (burnTokens env req.user req.token (round2 req.assetAmount)).1 with
  | error e =>
    simp only [sellOrder, getAssetReserve, updateAssetReserve, if_neg hcond, h1,
      if_neg hnlt, hb, Option.getD_some, ite_true, if_pos rfl, hcancel]
  | ok c =>
    simp only [sellOrder, getAssetReserve, updateAssetReserve, if_neg hcond, h1,
      if_neg hnlt, hb, Option.getD_some, ite_true, if_pos rfl, hcancel]

/-- Witness for `buy_round_trip_rounded_delta`: buying 1 AAPL unit over a
reserve of 5 puts the reserve at 6 and selling it back returns it to 5. -/
theorem buy_round_trip_rounded_delta_witness :
    (buyOrder envOk stFive reqBuyOne).2 "AAPL" = some 6
    ∧ (sellOrder envOk ((buyOrder envOk stFive reqBuyOne).2) reqBuyOne).2 "AAPL"
        = some 5 := by
  have h := buy_round_trip_rounded_delta envOk stFive reqBuyOne 5
    (of_decide_eq_true (by with_unfolding_all rfl))
    (of_decide_eq_true (by with_unfolding_all rfl))
    (by with_unfolding_all rfl)
    (of_decide_eq_true (by with_unfolding_all rfl))
  exact ⟨h.1.trans (by with_unfolding_all rfl), h.2⟩

/-- C6: the buy-event decoder divides the raw price field by 100 and sets
the settlement request's asset-unit amount to fiatAmount divided by the
scaled price; with fiatAmount 10000 and raw price 150 (scaled 1.50) the
decoded asset amount is 10000 / 1.50 = 20000/3 (about 6666.67). -/
theorem decodeBuyEvent_price_scaling (user ticker token : String)
    (usdcAmount assetAmount price : ℕ) :
    (decodeBuyEvent user ticker token usdcAmount assetAmount price).price
      = (price : ℚ) / 100
    ∧ (decodeBuyEvent user ticker token usdcAmount assetAmount price).assetAmount
      = (usdcAmount : ℚ) / ((price : ℚ) / 100)
    ∧ (decodeBuyEvent "u" "AAPL" "0xT" 10000 0 150).assetAmount = 20000/3 :=
  ⟨rfl, rfl, by with_unfolding_all rfl⟩

/-- In the token service's smallest-unit scaling `truncUnits`, an amount of
1 scales to exactly 10 to the token's decimal count. -/
theorem truncUnits_one (d : ℕ) : truncUnits 1 d = 10 ^ d := by
  rw [truncUnits, one_mul, show ((10 : ℚ) ^ d) = ((10 ^ d : ℤ) : ℚ) by push_cast; ring]
  exact Int.floor_intCast _

/-- Powers of 10 over ℤ are injective in the exponent. -/
theorem pow_ten_int_injective {m n : ℕ} (h : (10 : ℤ) ^ m = 10 ^ n) : m = n := by
  have hcast : ((10 ^ m : ℕ) : ℤ) = ((10 ^ n : ℕ) : ℤ) := by push_cast; exact h
  exact Nat.pow_right_injective (by norm_num) (Nat.cast_injective hcast)

/-- C7: every mint and burn scales the requested amount by the decimal
count read from the token contract in the call's environment: the
submitted smallest-unit amount is the floor of amount times 10 to that
decimal count, and two tokens reporting different decimal counts receive
different smallest-unit amounts for the same requested amount 1. -/
theorem mint_scaling_reads_decimals (env : ChainEnv) (u t1 t2 : String) (a : ℚ)
    (ha : 0 ≤ a)
    (hu : env.validAddress u = true)
    (ht1 : env.validAddress t1 = true) (ht2 : env.validAddress t2 = true)
    (hv : verifyUserIdentity env u = true)
    (hag1 : env.agentOk t1 = true) (hag2 : env.agentOk t2 = true)
    (hch : env.chainOk = true)
    (hbal1 : truncUnits a (env.tokenDecimals t1) ≤ env.balanceUnits t1 u) :
    (mintTokens env u t1 a).1
      = Except.ok { token := t1, user := u,
                    units := ⌊a * 10 ^ env.tokenDecimals t1⌋ }
    ∧ (burnTokens env u t1 a).1
      = Except.ok { token := t1, user := u,
                    units := ⌊a * 10 ^ env.tokenDecimals t1⌋ }
    ∧ (mintTokens env u t2 1).1
      = Except.ok { token := t2, user := u,
                    units := (10 : ℤ) ^ env.tokenDecimals t2 }
    ∧ (env.tokenDecimals t1 ≠ env.tokenDecimals t2 →
        (10 : ℤ) ^ env.tokenDecimals t1 ≠ (10 : ℤ) ^ env.tokenDecimals t2) := by
  have hnb : ¬ env.balanceUnits t1 u < ⌊a * 10 ^ env.tokenDecimals t1⌋ := by
    rw [truncUnits] at hbal1
    exact not_lt.mpr hbal1
  have hnn1 : ¬ ⌊a * 10 ^ env.tokenDecimals t1⌋ < 0 :=
    not_lt.mpr (Int.floor_nonneg.mpr (mul_nonneg ha (pow_nonneg (by norm_num) _)))
  have hnn2 : ¬ (10 : ℤ) ^ env.tokenDecimals t2 < 0 :=
    not_lt.mpr (pow_nonneg (by norm_num) _)
  refine ⟨?_, ?_, ?_, fun hne hp => hne (pow_ten_int_injective hp)⟩
  · simp [mintTokens, hu, ht1, hv, hag1, hch, truncUnits, hnn1]
  · simp [burnTokens, hu, ht1, hv, hag1, hch, truncUnits, hnb, hnn1]
  · simp [mintTokens, hu, ht2, hv, hag2, hch, truncUnits_one, hnn2]

/-- A chain environment like `envOk` but where token 0xb reports 2 decimals
and every other token reports 6. -/
def envTwoDec : ChainEnv :=
  { envOk with tokenDecimals := fun t => if t = "0xb" then 2 else 6 }

/-- Witness for `mint_scaling_reads_decimals`: the same requested amount 1
submits 100 smallest units on the 2-decimal token and 1000000 on the
6-decimal token. -/
theorem mint_scaling_reads_decimals_witness :
    (mintTokens envTwoDec "0xa" "0xb" 1).1
      = Except.ok { token := "0xb", user := "0xa", units := 100 }
    ∧ (mintTokens envTwoDec "0xa" "0xc" 1).1
      = Except.ok { token := "0xc", user := "0xa", units := 1000000 }
    ∧ ((100 : ℤ) ≠ 1000000) := by
  have h := mint_scaling_reads_decimals envTwoDec "0xa" "0xb" "0xc" 1
    (of_decide_eq_true (by with_unfolding_all rfl))
    (by with_unfolding_all rfl) (by with_unfolding_all rfl)
    (by with_unfolding_all rfl) (by with_unfolding_all rfl)
    (by with_unfolding_all rfl) (by with_unfolding_all rfl)
    (by with_unfolding_all rfl)
    (of_decide_eq_true (by with_unfolding_all rfl))
  exact ⟨h.1.trans (by with_unfolding_all rfl),
    h.2.2.1.trans (by with_unfolding_all rfl),
    of_decide_eq_true (by with_unfolding_all rfl)⟩

/-- C8 counterexample: a mint call with amount 0 and valid addresses does
not fail: it passes every check and submits a zero-unit transaction to the
chain, so no strict-positivity check on the amount exists before chain
interaction. -/
theorem mint_zero_amount_submits_cex :
    (mintTokens envOk "0xa" "0xb" 0).1
      = Except.ok { token := "0xb", user := "0xa", units := 0 }
    ∧ (mintTokens envOk "0xa" "0xb" 0).2
      = [{ token := "0xb", user := "0xa", units := 0 }] :=
  ⟨by with_unfolding_all rfl, by with_unfolding_all rfl⟩

/-- C8, amended: before any chain interaction, mint and burn check that the
user address and then the token contract address are syntactically valid,
failing with no chain submission otherwise; the amount's positivity is not
checked, and a zero-amount call with valid addresses proceeds to submit a
zero-unit transaction. -/
theorem mint_burn_address_checks (env : ChainEnv) (u t : String) (a : ℚ) :
    (env.validAddress u = false →
      mintTokens env u t a = (Except.error TokenErr.invalidUserAddress, [])
      ∧ burnTokens env u t a = (Except.error TokenErr.invalidUserAddress, []))
    ∧ (env.validAddress u = true → env.validAddress t = false →
      mintTokens env u t a = (Except.error TokenErr.invalidTokenAddress, [])
      ∧ burnTokens env u t a = (Except.error TokenErr.invalidTokenAddress, []))
    ∧ (mintTokens envOk "0xa" "0xb" 0).2
      = [{ token := "0xb", user := "0xa", units := 0 }] := by
  refine ⟨?_, ?_, by with_unfolding_all rfl⟩
  · intro h
    exact ⟨by simp [mintTokens, h], by simp [burnTokens, h]⟩
  · intro hu ht
    exact ⟨by simp [mintTokens, hu, ht], by simp [burnTokens, hu, ht]⟩

/-- Witness for `mint_burn_address_checks`: with an environment rejecting
every address, a mint fails on the user address with no submission. -/
theorem mint_burn_address_checks_witness :
    mintTokens { envOk with validAddress := fun _ => false } "u" "t" 1
      = (Except.error TokenErr.invalidUserAddress, []) :=
  ((mint_burn_address_checks { envOk with validAddress := fun _ => false }
    "u" "t" 1).1 (by with_unfolding_all rfl)).1

/-- C9: a buy that passes input validation applies its reserve delta
unconditionally, whatever the current stored value and whether or not a
record exists (the stored value defaults to 0), and a buy can never fail
with the insufficient-reserve or reserve-not-found errors: only the sell
path reads the reserve before writing. -/
theorem buyOrder_no_reserve_check (env : ChainEnv) (st : ReserveState)
    (req : OrderRequest) (hsym : req.assetSymbol ≠ "") (hamt : 0 < req.usdcAmount) :
    (buyOrder env st req).2 req.assetSymbol
      = some ((st req.assetSymbol).getD 0 + round2 req.assetAmount)
    ∧ (buyOrder env st req).1 ≠ Except.error OrderErr.insufficientReserve
    ∧ (buyOrder env st req).1 ≠ Except.error OrderErr.reserveNotFound := by
  have hcond : ¬ (req.assetSymbol = "" ∨ req.usdcAmount ≤ 0) :=
    not_or.mpr ⟨hsym, not_le.mpr hamt⟩
  refine ⟨?_, ?_, ?_⟩
  · cases hm : (mintTokens env req.user req.token (round2 req.assetAmount)).1 with
    | error e =>
      simp only [buyOrder, updateAssetReserve, if_neg hcond, hm, ite_true, if_pos rfl]
    | ok c =>
      simp only [buyOrder, updateAssetReserve, if_neg hcond, hm, ite_true, if_pos rfl]
  · cases hm : (mintTokens env req.user req.token (round2 req.assetAmount)).1 with
    | error e => simp [buyOrder, if_neg hcond, hm]
    | ok c => simp [buyOrder, if_neg hcond, hm]
  · cases hm : (mintTokens env req.user req.token (round2 req.assetAmount)).1 with
    | error e => simp [buyOrder, if_neg hcond, hm]
    | ok c => simp [buyOrder, if_neg hcond, hm]

/-- Witness for `buyOrder_no_reserve_check`: a buy of 1 AAPL unit over a
reserve of 5 writes 6 and does not fail with a reserve error. -/
theorem buyOrder_no_reserve_check_witness :
    (buyOrder envOk stFive reqBuyOne).2 "AAPL" = some 6
    ∧ (buyOrder envOk stFive reqBuyOne).1 ≠ Except.error OrderErr.insufficientReserve := by
  have h := buyOrder_no_reserve_check envOk stFive reqBuyOne
    (of_decide_eq_true (by with_unfolding_all rfl))
    (of_decide_eq_true (by with_unfolding_all rfl))
  exact ⟨h.1.trans (by with_unfolding_all rfl), h.2.1⟩

/-- C10: when the identity-registry lookup itself throws, the identity
check returns false instead of propagating the chain error, so the mint
and the burn fail with the same not-verified error an unverified user
gets; the whole mint outcome is identical to the one in an environment
whose registry answers false. -/
theorem identity_outage_reads_unverified (env : ChainEnv) (u t : String) (a : ℚ)
    (hout : env.isVerifiedResult u = none)
    (hu : env.validAddress u = true) (ht : env.validAddress t = true) :
    verifyUserIdentity env u = false
    ∧ (mintTokens env u t a).1 = Except.error TokenErr.notVerified
    ∧ (burnTokens env u t a).1 = Except.error TokenErr.notVerified
    ∧ mintTokens env u t a
      = mintTokens { env with isVerifiedResult := fun _ => some false } u t a := by
  have hv : verifyUserIdentity env u = false := by
    rw [verifyUserIdentity, hout]
  have hv2 : verifyUserIdentity { env with isVerifiedResult := fun _ => some false } u
      = false := rfl
  refine ⟨hv, by simp [mintTokens, hu, ht, hv], by simp [burnTokens, hu, ht, hv], ?_⟩
  rw [show mintTokens env u t a = (Except.error TokenErr.notVerified, []) by
      simp [mintTokens, hu, ht, hv],
    show mintTokens { env with isVerifiedResult := fun _ => some false } u t a
      = (Except.error TokenErr.notVerified, []) by
      simp [mintTokens, hu, ht, hv2]]

/-- Witness for `identity_outage_reads_unverified`: under a registry
outage, minting 1 token fails with the not-verified error. -/
theorem identity_outage_reads_unverified_witness :
    verifyUserIdentity envOutage "0xa" = false
    ∧ (mintTokens envOutage "0xa" "0xb" 1).1 = Except.error TokenErr.notVerified := by
  have h := identity_outage_reads_unverified envOutage "0xa" "0xb" 1
    (by with_unfolding_all rfl) (by with_unfolding_all rfl) (by with_unfolding_all rfl)
  exact ⟨h.1, h.2.1⟩
